import Mathlib

/-!
Verification of the face-recognition core of this repository against its
specification.  The shallow embedding below follows the source files:

* `app/face_utils.py` — Euclidean distance, nearest-neighbour recognition
  (`recognize_face`) and the duplicate guard (`is_face_duplicate`);
* `app/database.py` — the Store (`load_known_faces_from_db`,
  `save_face_to_db`, `delete_face_from_db`);
* `app/main.py` — the endpoints (`register_face`, `delete_face_by_name`,
  `refresh_db_faces_endpoint`) and the startup reconciliation batch;
* `api.py` — the older variant of the loader and refresh endpoint.

Embedding vectors are lists of rationals; Euclidean distances live in `ℝ`
(`Real.sqrt` of the rational sum of squares).  The Store is a list of rows
together with a reachability flag; Store I/O failure is the unreachable case.
-/

namespace FaceAPI

/-- Embedding vector: the numeric feature vector the system compares. -/
abbrev Emb := List ℚ

/-- Minimum of the nonempty list `x :: xs`, the value `np.min` computes. -/
def list_min {α : Type} [LinearOrder α] (x : α) (xs : List α) : α :=
  xs.foldl min x

/-- Index of the first occurrence of the minimum of a list: the semantics of
`np.argmin`, which numpy documents to return the first occurrence on ties.
On the empty list the result is 0 (numpy raises there; the callers below all
guard against the empty gallery first). -/
def argmin {α : Type} [LinearOrder α] [DecidableEq α] : List α → ℕ
  | [] => 0
  | x :: xs => (x :: xs).indexOf (list_min x xs)

theorem list_min_cons {α : Type} [LinearOrder α] (x b : α) (t : List α) :
    list_min x (b :: t) = list_min (min x b) t := rfl

theorem list_min_mem {α : Type} [LinearOrder α] (x : α) (xs : List α) :
    list_min x xs ∈ x :: xs := by
  induction xs generalizing x with
  | nil => simp [list_min]
  | cons b t ih =>
    rw [list_min_cons]
    rcases List.mem_cons.mp (ih (min x b)) with h1 | h2
    · rcases min_cases x b with ⟨he, _⟩ | ⟨he, _⟩
      · rw [h1, he]; exact List.mem_cons_self _ _
      · rw [h1, he]; exact List.mem_cons_of_mem _ (List.mem_cons_self _ _)
    · exact List.mem_cons_of_mem _ (List.mem_cons_of_mem _ h2)

theorem list_min_le {α : Type} [LinearOrder α] (x : α) (xs : List α) :
    ∀ y ∈ x :: xs, list_min x xs ≤ y := by
  induction xs generalizing x with
  | nil => intro y hy; simp at hy; simp [list_min, hy]
  | cons b t ih =>
    intro y hy
    rw [list_min_cons]
    have hmin : list_min (min x b) t ≤ min x b :=
      ih (min x b) (min x b) (List.mem_cons_self _ _)
    rcases List.mem_cons.mp hy with h1 | hy2
    · exact h1 ▸ hmin.trans (min_le_left _ _)
    · rcases List.mem_cons.mp hy2 with h2 | h3
      · exact h2 ▸ hmin.trans (min_le_right _ _)
      · exact ih (min x b) y (List.mem_cons_of_mem _ h3)

theorem indexOf_le_of_get_eq {α : Type} [DecidableEq α] (l : List α) (a : α) :
    ∀ (j : ℕ) (hj : j < l.length), l.get ⟨j, hj⟩ = a → l.indexOf a ≤ j := by
  induction l with
  | nil => intro j hj; simp at hj
  | cons x t ih =>
    intro j hj hget
    cases j with
    | zero =>
      simp only [List.get] at hget
      rw [List.indexOf_cons_eq t hget]
    | succ j =>
      by_cases hx : x = a
      · rw [List.indexOf_cons_eq _ hx]; exact Nat.zero_le _
      · rw [List.indexOf_cons_ne _ hx]
        have hj' : j < t.length := by simpa using hj
        have := ih j hj' (by simpa using hget)
        omega

theorem argmin_lt_length {α : Type} [LinearOrder α] [DecidableEq α]
    {l : List α} (h : l ≠ []) : argmin l < l.length := by
  match l, h with
  | x :: xs, _ =>
    exact List.indexOf_lt_length.mpr (list_min_mem x xs)

theorem get_argmin {α : Type} [LinearOrder α] [DecidableEq α]
    (x : α) (xs : List α) (h : argmin (x :: xs) < (x :: xs).length) :
    (x :: xs).get ⟨argmin (x :: xs), h⟩ = list_min x xs :=
  List.indexOf_get h

theorem get_argmin_le {α : Type} [LinearOrder α] [DecidableEq α]
    {l : List α} (hne : l ≠ []) (ha : argmin l < l.length)
    (j : ℕ) (hj : j < l.length) : l.get ⟨argmin l, ha⟩ ≤ l.get ⟨j, hj⟩ := by
  match l, hne with
  | x :: xs, _ =>
    rw [get_argmin x xs ha]
    exact list_min_le x xs _ (List.get_mem _ _ _)

theorem argmin_le_of_min {α : Type} [LinearOrder α] [DecidableEq α]
    {l : List α} (j : ℕ) (hj : j < l.length)
    (hmin : ∀ (k : ℕ) (hk : k < l.length), l.get ⟨j, hj⟩ ≤ l.get ⟨k, hk⟩) :
    argmin l ≤ j := by
  match l with
  | x :: xs =>
    have hne : (x :: xs) ≠ [] := by simp
    have ha : argmin (x :: xs) < (x :: xs).length := argmin_lt_length hne
    have h1 : (x :: xs).get ⟨j, hj⟩ ≤ list_min x xs := by
      rw [← get_argmin x xs ha]; exact hmin _ ha
    have h2 : list_min x xs ≤ (x :: xs).get ⟨j, hj⟩ :=
      list_min_le x xs _ (List.get_mem _ _ _)
    have heq : (x :: xs).get ⟨j, hj⟩ = list_min x xs := le_antisymm h1 h2
    exact indexOf_le_of_get_eq _ _ j hj heq

/-- Squared Euclidean distance between two embeddings: the sum of squared
coordinate differences under the square root of `np.linalg.norm`. -/
def sq_dist (a b : Emb) : ℚ :=
  (List.zipWith (fun x y => (x - y) ^ 2) a b).sum

/-- Euclidean distance of one gallery embedding to the test embedding, as
`face_recognition.face_distance` computes it: the 2-norm of the difference. -/
noncomputable def face_dist (a b : Emb) : ℝ :=
  Real.sqrt ((sq_dist a b : ℚ) : ℝ)

/-- Distances from every gallery embedding to the test embedding, in gallery
order: `face_recognition.face_distance(known_face_encodings, test)`. -/
noncomputable def face_distance (known : List Emb) (test : Emb) : List ℝ :=
  known.map (fun e => face_dist e test)

theorem sq_dist_nonneg (a b : Emb) : 0 ≤ sq_dist a b := by
  induction a generalizing b with
  | nil => simp [sq_dist]
  | cons x t ih =>
    cases b with
    | nil => simp [sq_dist]
    | cons y s =>
      have h1 : (0 : ℚ) ≤ (x - y) ^ 2 := sq_nonneg _
      have h2 := ih s
      simp only [sq_dist, List.zipWith_cons_cons, List.sum_cons]
      have h2' : (0 : ℚ) ≤ (List.zipWith (fun x y => (x - y) ^ 2) t s).sum := h2
      linarith

theorem sq_dist_self (a : Emb) : sq_dist a a = 0 := by
  induction a with
  | nil => rfl
  | cons x t ih =>
    simp only [sq_dist, List.zipWith_cons_cons, List.sum_cons] at ih ⊢
    simp [ih]

theorem face_dist_self (a : Emb) : face_dist a a = 0 := by
  rw [face_dist, sq_dist_self]; simp

theorem face_dist_nonneg (a b : Emb) : 0 ≤ face_dist a b := Real.sqrt_nonneg _

theorem sq_dist_eq_zero (a b : Emb) (hlen : a.length = b.length)
    (h : sq_dist a b = 0) : a = b := by
  induction a generalizing b with
  | nil => cases b with
    | nil => rfl
    | cons y s => simp at hlen
  | cons x t ih =>
    cases b with
    | nil => simp at hlen
    | cons y s =>
      simp only [sq_dist, List.zipWith_cons_cons, List.sum_cons] at h
      have htail : (0 : ℚ) ≤ (List.zipWith (fun x y => (x - y) ^ 2) t s).sum :=
        sq_dist_nonneg t s
      have hhead : (0 : ℚ) ≤ (x - y) ^ 2 := sq_nonneg _
      have h1 : (x - y) ^ 2 = 0 := by linarith
      have h2 : sq_dist t s = 0 := by simp only [sq_dist]; linarith
      have hx : x = y := by
        have := pow_eq_zero_iff (n := 2) (by norm_num) |>.mp h1
        linarith [sub_eq_zero.mp this]
      have hlen' : t.length = s.length := by simpa using hlen
      rw [hx, ih s hlen' h2]

theorem face_dist_eq_zero (a b : Emb) (hlen : a.length = b.length)
    (h : face_dist a b = 0) : a = b := by
  apply sq_dist_eq_zero a b hlen
  rw [face_dist] at h
  have h0 : ((sq_dist a b : ℚ) : ℝ) = 0 := by
    have hnn : (0 : ℝ) ≤ ((sq_dist a b : ℚ) : ℝ) := by
      exact_mod_cast sq_dist_nonneg a b
    exact (Real.sqrt_eq_zero hnn).mp h
  exact_mod_cast h0

/-- Result model of `face_utils.FaceRecognitionResult` (pydantic BaseModel):
a name, a known flag and an optional distance. -/
structure FaceRecognitionResult where
  name : String
  is_known : Bool
  distance : Option ℝ

/-- Default tolerance `FACE_RECOGNITION_TOLERANCE = 0.6` of `face_utils.py`. -/
noncomputable def FACE_RECOGNITION_TOLERANCE : ℝ := 0.6

/-- Model of `face_utils.recognize_face`: on an empty gallery return the
sentinel result; otherwise compute all distances, take `np.argmin`, and
classify the best match against the tolerance. -/
noncomputable def recognize_face (test_embedding : Emb)
    (known_face_encodings : List Emb) (known_face_names : List String)
    (tolerance : ℝ) : FaceRecognitionResult :=
  if known_face_encodings = [] then
    ⟨"No hay rostros de referencia cargados en memoria.", false, none⟩
  else
    let face_distances := face_distance known_face_encodings test_embedding
    let best_match_index := argmin face_distances
    let best_match_distance := face_distances.getD best_match_index 0
    if best_match_distance ≤ tolerance then
      ⟨known_face_names.getD best_match_index "", true, some best_match_distance⟩
    else
      ⟨"Desconocido", false, some best_match_distance⟩

/-- Model of `face_utils.is_face_duplicate`: same scan as `recognize_face`,
returning the python tuple `(es_duplicado, nombre_del_duplicado, distancia)`. -/
noncomputable def is_face_duplicate (new_embedding : Emb)
    (known_face_encodings : List Emb) (known_face_names : List String)
    (tolerance : ℝ) : Bool × Option String × Option ℝ :=
  if known_face_encodings = [] then
    (false, none, none)
  else
    let face_distances := face_distance known_face_encodings new_embedding
    let best_match_index := argmin face_distances
    let best_match_distance := face_distances.getD best_match_index 0
    if best_match_distance ≤ tolerance then
      (true, some (known_face_names.getD best_match_index ""), some best_match_distance)
    else
      (false, none, none)

theorem face_distance_length (known : List Emb) (test : Emb) :
    (face_distance known test).length = known.length := List.length_map _ _

theorem face_distance_get (known : List Emb) (test : Emb) (j : ℕ)
    (hj : j < (face_distance known test).length)
    (hj' : j < known.length) :
    (face_distance known test).get ⟨j, hj⟩ = face_dist (known.get ⟨j, hj'⟩) test := by
  simp [face_distance, List.get_eq_getElem, List.getElem_map]

theorem recognize_face_empty (test : Emb) (names : List String) (tol : ℝ) :
    recognize_face test [] names tol =
      ⟨"No hay rostros de referencia cargados en memoria.", false, none⟩ := by
  simp [recognize_face]

theorem is_face_duplicate_empty (e : Emb) (names : List String) (tol : ℝ) :
    is_face_duplicate e [] names tol = (false, none, none) := by
  simp [is_face_duplicate]

/-- Nearest-neighbour behaviour of `recognize_face` on a nonempty gallery:
the selected index attains the minimum distance, is the earliest index doing
so, and the result is classified against the tolerance with that distance. -/
theorem recognize_face_spec (test : Emb) (encs : List Emb) (names : List String)
    (tol : ℝ) (hne : encs ≠ []) :
    ∃ (k : ℕ) (hk : k < encs.length),
      (∀ (j : ℕ) (hj : j < encs.length),
          face_dist (encs.get ⟨k, hk⟩) test ≤ face_dist (encs.get ⟨j, hj⟩) test) ∧
      (∀ (j : ℕ) (hj : j < encs.length),
          (∀ (i : ℕ) (hi : i < encs.length),
              face_dist (encs.get ⟨j, hj⟩) test ≤ face_dist (encs.get ⟨i, hi⟩) test) →
          k ≤ j) ∧
      (face_dist (encs.get ⟨k, hk⟩) test ≤ tol →
        recognize_face test encs names tol =
          ⟨names.getD k "", true, some (face_dist (encs.get ⟨k, hk⟩) test)⟩) ∧
      (tol < face_dist (encs.get ⟨k, hk⟩) test →
        recognize_face test encs names tol =
          ⟨"Desconocido", false, some (face_dist (encs.get ⟨k, hk⟩) test)⟩) := by
  have hdne : face_distance encs test ≠ [] := by
    simp [face_distance, hne]
  have hlen : (face_distance encs test).length = encs.length := face_distance_length _ _
  have hk' : argmin (face_distance encs test) < (face_distance encs test).length :=
    argmin_lt_length hdne
  have hk : argmin (face_distance encs test) < encs.length := hlen ▸ hk'
  have hgetD : (face_distance encs test).getD (argmin (face_distance encs test)) 0 =
      face_dist (encs.get ⟨argmin (face_distance encs test), hk⟩) test := by
    rw [List.getD_eq_get _ _ hk']
    exact face_distance_get encs test _ hk' hk
  refine ⟨argmin (face_distance encs test), hk, ?_, ?_, ?_, ?_⟩
  · intro j hj
    have hj' : j < (face_distance encs test).length := lt_of_lt_of_eq hj hlen.symm
    have := get_argmin_le hdne hk' j hj'
    rwa [face_distance_get encs test _ hk' hk, face_distance_get encs test j hj' hj] at this
  · intro j hj hmin
    have hj' : j < (face_distance encs test).length := lt_of_lt_of_eq hj hlen.symm
    apply argmin_le_of_min j hj'
    intro i hi'
    have hi : i < encs.length := lt_of_lt_of_eq hi' hlen
    rw [face_distance_get encs test j hj' hj, face_distance_get encs test i hi' hi]
    exact hmin i hi
  · intro hle
    rw [recognize_face, if_neg hne]
    simp only [hgetD]
    rw [if_pos hle]
  · intro hlt
    rw [recognize_face, if_neg hne]
    simp only [hgetD]
    rw [if_neg (not_le.mpr hlt)]

/-- Duplicate-guard behaviour of `is_face_duplicate` on a nonempty gallery,
mirroring `recognize_face_spec`. -/
theorem is_face_duplicate_spec (e : Emb) (encs : List Emb) (names : List String)
    (tol : ℝ) (hne : encs ≠ []) :
    ∃ (k : ℕ) (hk : k < encs.length),
      (∀ (j : ℕ) (hj : j < encs.length),
          face_dist (encs.get ⟨k, hk⟩) e ≤ face_dist (encs.get ⟨j, hj⟩) e) ∧
      (face_dist (encs.get ⟨k, hk⟩) e ≤ tol →
        is_face_duplicate e encs names tol =
          (true, some (names.getD k ""), some (face_dist (encs.get ⟨k, hk⟩) e))) ∧
      (tol < face_dist (encs.get ⟨k, hk⟩) e →
        is_face_duplicate e encs names tol = (false, none, none)) := by
  have hdne : face_distance encs e ≠ [] := by
    simp [face_distance, hne]
  have hlen : (face_distance encs e).length = encs.length := face_distance_length _ _
  have hk' : argmin (face_distance encs e) < (face_distance encs e).length :=
    argmin_lt_length hdne
  have hk : argmin (face_distance encs e) < encs.length := hlen ▸ hk'
  have hgetD : (face_distance encs e).getD (argmin (face_distance encs e)) 0 =
      face_dist (encs.get ⟨argmin (face_distance encs e), hk⟩) e := by
    rw [List.getD_eq_get _ _ hk']
    exact face_distance_get encs e _ hk' hk
  refine ⟨argmin (face_distance encs e), hk, ?_, ?_, ?_⟩
  · intro j hj
    have hj' : j < (face_distance encs e).length := lt_of_lt_of_eq hj hlen.symm
    have := get_argmin_le hdne hk' j hj'
    rwa [face_distance_get encs e _ hk' hk, face_distance_get encs e j hj' hj] at this
  · intro hle
    rw [is_face_duplicate, if_neg hne]
    simp only [hgetD]
    rw [if_pos hle]
  · intro hlt
    rw [is_face_duplicate, if_neg hne]
    simp only [hgetD]
    rw [if_neg (not_le.mpr hlt)]

/-- C3: for every query embedding, threshold, and snapshot: if the snapshot is
empty, classify returns the sentinel "no reference gallery" result with
is_known = false and distance = none; otherwise, letting the minimum Euclidean
distance from the query to the snapshot's embeddings be attained first at
index k, classify returns the name of that entry with is_known = true and the
minimum distance when the minimum is within the threshold, and "Desconocido"
(Unknown) with is_known = false and the minimum distance when it is above. -/
theorem C3_classify_by_min_distance (test : Emb) (encs : List Emb)
    (names : List String) (tol : ℝ) :
    (encs = [] → recognize_face test encs names tol =
      ⟨"No hay rostros de referencia cargados en memoria.", false, none⟩) ∧
    (encs ≠ [] → ∃ (k : ℕ) (hk : k < encs.length),
      (∀ (j : ℕ) (hj : j < encs.length),
          face_dist (encs.get ⟨k, hk⟩) test ≤ face_dist (encs.get ⟨j, hj⟩) test) ∧
      (face_dist (encs.get ⟨k, hk⟩) test ≤ tol →
        recognize_face test encs names tol =
          ⟨names.getD k "", true, some (face_dist (encs.get ⟨k, hk⟩) test)⟩) ∧
      (tol < face_dist (encs.get ⟨k, hk⟩) test →
        recognize_face test encs names tol =
          ⟨"Desconocido", false, some (face_dist (encs.get ⟨k, hk⟩) test)⟩)) := by
  constructor
  · intro h; subst h; exact recognize_face_empty test names tol
  · intro hne
    obtain ⟨k, hk, hmin, _, hpos, hneg⟩ := recognize_face_spec test encs names tol hne
    exact ⟨k, hk, hmin, hpos, hneg⟩

/-- C4: when several snapshot entries share the exact minimum distance,
`recognize_face` returns the entry that appears earliest in snapshot order:
given a minimizing index i tied with a later index j, the returned entry's
index k satisfies k ≤ i (so for any two entries at equal minimum distance the
earlier one is always the one returned). -/
theorem C4_earliest_tie_wins (test : Emb) (encs : List Emb) (names : List String)
    (tol : ℝ) (i j : ℕ) (hi : i < encs.length) (hj : j < encs.length) (hij : i < j)
    (heq : face_dist (encs.get ⟨i, hi⟩) test = face_dist (encs.get ⟨j, hj⟩) test)
    (hmin : ∀ (m : ℕ) (hm : m < encs.length),
        face_dist (encs.get ⟨i, hi⟩) test ≤ face_dist (encs.get ⟨m, hm⟩) test)
    (htol : face_dist (encs.get ⟨i, hi⟩) test ≤ tol) :
    ∃ (k : ℕ) (hk : k < encs.length), k ≤ i ∧
      face_dist (encs.get ⟨k, hk⟩) test = face_dist (encs.get ⟨i, hi⟩) test ∧
      recognize_face test encs names tol =
        ⟨names.getD k "", true, some (face_dist (encs.get ⟨k, hk⟩) test)⟩ := by
  have hne : encs ≠ [] := by
    intro h; rw [h] at hi; simp at hi
  obtain ⟨k, hk, hminspec, hearliest, hpos, _⟩ :=
    recognize_face_spec test encs names tol hne
  have hki : k ≤ i := hearliest i hi hmin
  have hdk : face_dist (encs.get ⟨k, hk⟩) test = face_dist (encs.get ⟨i, hi⟩) test :=
    le_antisymm (hminspec i hi) (hmin k hk)
  exact ⟨k, hk, hki, hdk, hpos (hdk ▸ htol)⟩

/-- Witness for C4 at a concrete input: gallery of two identical embeddings
under the names alicia and benito; the returned entry is at index k ≤ 0, so
alicia — the entry enrolled first — wins the tie. -/
theorem C4_earliest_tie_wins_witness :
    ∃ (k : ℕ) (hk : k < ([[(0:ℚ)], [0]] : List Emb).length), k ≤ 0 ∧
      face_dist (([[(0:ℚ)], [0]] : List Emb).get ⟨k, hk⟩) [0] =
        face_dist (([[(0:ℚ)], [0]] : List Emb).get ⟨0, by norm_num⟩) [0] ∧
      recognize_face [0] [[(0:ℚ)], [0]] ["alicia", "benito"] FACE_RECOGNITION_TOLERANCE =
        ⟨["alicia", "benito"].getD k "", true,
          some (face_dist (([[(0:ℚ)], [0]] : List Emb).get ⟨k, hk⟩) [0])⟩ :=
  C4_earliest_tie_wins [0] [[(0:ℚ)], [0]] ["alicia", "benito"]
    FACE_RECOGNITION_TOLERANCE 0 1 (by norm_num) (by norm_num) (by norm_num)
    rfl
    (by
      intro m hm
      have hm2 : m = 0 ∨ m = 1 := by simp at hm; omega
      rcases hm2 with h | h <;> subst h <;> exact le_rfl)
    (by
      show face_dist [0] [0] ≤ FACE_RECOGNITION_TOLERANCE
      rw [face_dist_self]
      rw [FACE_RECOGNITION_TOLERANCE]
      norm_num)

/-- C5: the Euclidean distance of every embedding to itself is 0, and
recognizing a query equal to an enrolled vector (all gallery vectors having
the query's dimension) returns an entry whose embedding equals the query,
with distance 0 and is_known = true, for any non-negative threshold. -/
theorem C5_self_distance_zero (q : Emb) (encs : List Emb) (names : List String)
    (tol : ℝ) (hmem : q ∈ encs) (hdim : ∀ e ∈ encs, e.length = q.length)
    (htol : 0 ≤ tol) :
    (∀ e : Emb, face_dist e e = 0) ∧
    ∃ (k : ℕ) (hk : k < encs.length), encs.get ⟨k, hk⟩ = q ∧
      recognize_face q encs names tol = ⟨names.getD k "", true, some 0⟩ := by
  refine ⟨face_dist_self, ?_⟩
  have hne : encs ≠ [] := by
    intro h; rw [h] at hmem; simp at hmem
  obtain ⟨k, hk, hmin, _, hpos, _⟩ := recognize_face_spec q encs names tol hne
  obtain ⟨⟨j, hj⟩, hjq⟩ := List.get_of_mem hmem
  have hdj : face_dist (encs.get ⟨j, hj⟩) q = 0 := by rw [hjq, face_dist_self]
  have hdk0 : face_dist (encs.get ⟨k, hk⟩) q = 0 := by
    have h1 : face_dist (encs.get ⟨k, hk⟩) q ≤ 0 := hdj ▸ hmin j hj
    exact le_antisymm h1 (face_dist_nonneg _ _)
  have hgetk : encs.get ⟨k, hk⟩ = q := by
    apply face_dist_eq_zero _ _ _ hdk0
    exact hdim _ (List.get_mem _ _ _)
  refine ⟨k, hk, hgetk, ?_⟩
  have := hpos (by rw [hdk0]; exact htol)
  rwa [hdk0] at this

/-- Witness for C5 at a concrete input: the one-entry gallery alicia with
embedding [1], queried with [1], tolerance 0.6. -/
theorem C5_self_distance_zero_witness :
    (∀ e : Emb, face_dist e e = 0) ∧
    ∃ (k : ℕ) (hk : k < ([[(1:ℚ)]] : List Emb).length),
      ([[(1:ℚ)]] : List Emb).get ⟨k, hk⟩ = [1] ∧
      recognize_face [1] [[(1:ℚ)]] ["alicia"] FACE_RECOGNITION_TOLERANCE =
        ⟨["alicia"].getD k "", true, some 0⟩ :=
  C5_self_distance_zero [1] [[(1:ℚ)]] ["alicia"] FACE_RECOGNITION_TOLERANCE
    (by simp)
    (by intro e he; simp at he; rw [he])
    (by rw [FACE_RECOGNITION_TOLERANCE]; norm_num)

/-- Value of the embedding column of a Store row: SQL NULL, a numeric list,
or malformed data that is not a list (the loader logs and skips these). -/
inductive EmbVal
  | null : EmbVal
  | vec : Emb → EmbVal
  | malformed : EmbVal
deriving DecidableEq

/-- Row of the mis_personas_pg table: id, nombre, embedding (created_at and
updated_at carry no behaviour the claims mention and are omitted). -/
structure Row where
  id : ℕ
  nombre : String
  embedding : EmbVal
deriving DecidableEq

/-- The Store: the table rows plus whether the database can be reached
(whether psycopg2.connect succeeds). -/
structure Store where
  rows : List Row
  reachable : Bool
deriving DecidableEq

/-- Model of `app/database.py load_known_faces_from_db`: on an unreachable
Store the psycopg2 error propagates to the caller; otherwise the SQL WHERE
keeps the rows whose embedding IS NOT NULL, and the python loop then keeps
only those rows whose embedding data is a list, appending the name and the
embedding to the two result lists in lockstep. -/
def load_known_faces_from_db (st : Store) : Except String (List Emb × List String) :=
  if st.reachable then
    let rows := st.rows.filter (fun r => r.embedding ≠ EmbVal.null)
    let kept := rows.filterMap (fun r =>
      match r.embedding with
      | EmbVal.vec v => some (v, r.nombre)
      | _ => none)
    .ok (kept.map Prod.fst, kept.map Prod.snd)
  else .error "Error al conectar a la base de datos"

/-- Next id the database assigns to an inserted row (SERIAL primary key):
one more than the largest existing id. -/
def next_id (rows : List Row) : ℕ :=
  (rows.map Row.id).foldl max 0 + 1

/-- Model of `app/database.py save_face_to_db`: if a row with the name exists
its embedding is updated in place (same id); else a new row is inserted and
its fresh id returned; a connection failure propagates with the rows
unchanged (the transaction is rolled back). -/
def save_face_to_db (st : Store) (nombre : String) (emb : Emb) :
    Except String (Store × ℕ) :=
  if st.reachable then
    match st.rows.find? (fun r => r.nombre = nombre) with
    | some r =>
      .ok (⟨st.rows.map (fun q => if q.id = r.id then ⟨q.id, q.nombre, EmbVal.vec emb⟩ else q),
            st.reachable⟩, r.id)
    | none =>
      .ok (⟨st.rows ++ [⟨next_id st.rows, nombre, EmbVal.vec emb⟩], st.reachable⟩,
           next_id st.rows)
  else .error "Error al conectar a la base de datos"

/-- Model of `app/database.py delete_face_from_db`: DELETE the rows whose id
matches and report whether any row was removed (cur.rowcount > 0). -/
def delete_face_from_db (st : Store) (person_id : ℕ) :
    Except String (Store × Bool) :=
  if st.reachable then
    let remaining := st.rows.filter (fun r => r.id ≠ person_id)
    .ok (⟨remaining, st.reachable⟩, decide (remaining.length < st.rows.length))
  else .error "Error al conectar a la base de datos"

/-- The module-level cache of `app/main.py`: the parallel lists
known_face_encodings and known_face_names. -/
structure AppState where
  known_face_encodings : List Emb
  known_face_names : List String
deriving DecidableEq

/-- HTTP error model: FastAPI's HTTPException, a status code and a detail
string — the whole payload the caller receives on failure. -/
structure HttpErr where
  status : ℕ
  detail : String
deriving DecidableEq

/-- Success payload of the register endpoint: message, person_id, nombre. -/
structure RegisterOk where
  message : String
  person_id : ℕ
  nombre : String
deriving DecidableEq

/-- Stringification of an HTTPException as the python f-string interpolates a
caught exception `e`: starlette's HTTPException renders itself as
"<status_code>: <detail>". -/
def http_exception_str (e : HttpErr) : String :=
  toString e.status ++ ": " ++ e.detail

/-- Model of the post-extraction part of `app/main.py register_face` (the
duplicate check, Store write and cache reload): run `is_face_duplicate`
against the current cache with the default tolerance.  On a duplicate the
handler raises HTTPException(409) naming the existing match — but that raise
sits inside a try whose only handler is a bare `except Exception`, which
catches the 409 and re-raises HTTPException(500, "Error interno al verificar
duplicados: " + str(e)); so the caller-visible failure is that 500 wrapper,
and nothing is written.  Otherwise save to the Store, reload the cache, and
answer with the person id.  Database failures surface as 500 and leave the
cache unchanged. -/
noncomputable def register_face (st : Store) (s : AppState) (nombre : String)
    (face_encoding : Emb) : Store × AppState × Except HttpErr RegisterOk :=
  let dup := is_face_duplicate face_encoding s.known_face_encodings
      s.known_face_names FACE_RECOGNITION_TOLERANCE
  if dup.1 then
    (st, s, .error ⟨500, "Error interno al verificar duplicados: " ++
      http_exception_str
        ⟨409, "Este rostro ya está registrado como '" ++ dup.2.1.getD "" ++ "'."⟩⟩)
  else
    match save_face_to_db st nombre face_encoding with
    | .error e => (st, s, .error ⟨500, "Error en la base de datos al registrar: " ++ e⟩)
    | .ok (st', person_id) =>
      match load_known_faces_from_db st' with
      | .ok (encs, names) =>
        (st', ⟨encs, names⟩,
          .ok ⟨"'" ++ nombre ++ "' registrado exitosamente.", person_id, nombre⟩)
      | .error e => (st', s, .error ⟨500, "Error en la base de datos al registrar: " ++ e⟩)

/-- Model of `app/main.py delete_face_by_name`: resolve the name to an id via
the first matching row (404 if none), delete by id, and only on a successful
delete reload the cache (a reload failure is only logged, the old cache is
kept).  A connection failure surfaces as 500 with everything unchanged. -/
def delete_face_by_name (st : Store) (s : AppState) (nombre : String) :
    Store × AppState × Except HttpErr String :=
  if st.reachable then
    match st.rows.find? (fun r => r.nombre = nombre) with
    | none => (st, s, .error ⟨404, "Persona con nombre '" ++ nombre ++ "' no encontrada."⟩)
    | some r =>
      match delete_face_from_db st r.id with
      | .ok (st', true) =>
        match load_known_faces_from_db st' with
        | .ok (encs, names) =>
          (st', ⟨encs, names⟩, .ok ("Persona '" ++ nombre ++ "' eliminada exitosamente de la DB."))
        | .error _ =>
          (st', s, .ok ("Persona '" ++ nombre ++ "' eliminada exitosamente de la DB."))
      | .ok (st', false) => (st', s, .error ⟨500, "Error interno al eliminar a la persona."⟩)
      | .error e => (st, s, .error ⟨500, "Error interno al eliminar: " ++ e⟩)
  else (st, s, .error ⟨500, "Error interno al eliminar: sin conexión"⟩)

/-- Model of `app/main.py refresh_db_faces_endpoint`: reload the cache from
the Store and report the new total; on failure answer 500 with the cache
unchanged (the load raises before the global assignment happens). -/
def refresh_db_faces_endpoint (st : Store) (s : AppState) :
    AppState × Except HttpErr String :=
  match load_known_faces_from_db st with
  | .ok (encs, names) =>
    (⟨encs, names⟩, .ok ("Rostros recargados desde la DB. Total: " ++ toString names.length))
  | .error e => (s, .error ⟨500, "Error interno al recargar rostros: " ++ e⟩)

namespace Api

/-- In-memory cache of the older `api.py`: the module-level lists. -/
structure ApiState where
  known_face_encodings : List Emb
  known_face_names : List String
deriving DecidableEq

/-- Embedding data as `np.array(embedding_data)` turns it into a vector in
`api.py`, which (unlike `app/database.py`) performs no isinstance check. -/
def vec_of : EmbVal → Emb
  | .vec v => v
  | _ => []

/-- Model of `api.py load_known_faces_from_db`: the module-level lists are
cleared FIRST, then the connection is attempted; a connection failure raises
an HTTPException with the cache left empty, while on success every non-NULL
row is loaded. -/
def load_known_faces_from_db (st : Store) : ApiState × Except HttpErr Unit :=
  if st.reachable then
    let rows := st.rows.filter (fun r => r.embedding ≠ EmbVal.null)
    (⟨rows.map (fun r => vec_of r.embedding), rows.map (fun r => r.nombre)⟩, .ok ())
  else
    (⟨[], []⟩, .error ⟨500, "No se pudo conectar a la base de datos"⟩)

/-- Model of `api.py refresh_db_faces`: call the loader (whose failure
propagates) and report the new total. -/
def refresh_db_faces (st : Store) (_s : ApiState) : ApiState × Except HttpErr String :=
  match load_known_faces_from_db st with
  | (s', .ok _) =>
    (s', .ok ("Rostros recargados desde la DB. Total: " ++ toString s'.known_face_names.length))
  | (s', .error e) => (s', .error e)

end Api

/-- Embedder outcome for one reference photo, as reported by the external
collaborators (file read, image decode, face detection + encoding). -/
inductive ItemOutcome
  | readError : ItemOutcome
  | decodeError : ItemOutcome
  | noFace : ItemOutcome
  | ok : Emb → ItemOutcome

/-- One (name, image) pair of the startup reconciliation batch together with
what the Embedder reports for its bytes. -/
structure RefItem where
  nombre : String
  outcome : ItemOutcome

/-- One iteration of the reference-photo loop of `app/main.py startup_event`
over the accumulator (store, registered_count, error_count).  The duplicate
check runs against the startup cache `s`, which the loop never reassigns.
A failing read, an undecodable image, a no-face image, a duplicate and a
database error each increment error_count and processing continues; a name
already in the cache is skipped silently (no count, no write). -/
noncomputable def process_item (s : AppState) (acc : Store × ℕ × ℕ) (it : RefItem) :
    Store × ℕ × ℕ :=
  match acc with
  | (st, registered_count, error_count) =>
    match it.outcome with
    | .readError => (st, registered_count, error_count + 1)
    | outcome =>
      if it.nombre ∈ s.known_face_names then (st, registered_count, error_count)
      else
        match outcome with
        | .decodeError => (st, registered_count, error_count + 1)
        | .noFace => (st, registered_count, error_count + 1)
        | .ok face_encoding =>
          if (is_face_duplicate face_encoding s.known_face_encodings
              s.known_face_names FACE_RECOGNITION_TOLERANCE).1 then
            (st, registered_count, error_count + 1)
          else
            match save_face_to_db st it.nombre face_encoding with
            | .ok (st', _) => (st', registered_count + 1, error_count)
            | .error _ => (st, registered_count, error_count + 1)
        | .readError => (st, registered_count, error_count + 1)

/-- Model of the reference-photo registration batch of `app/main.py`
`startup_event` (after the initial cache load): fold the items, then reload
the cache once if anything was registered or errored, else not at all.  The
last component counts the cache reloads performed after the batch (a failing
reload is still one attempted reload; it only logs a warning). -/
noncomputable def startup_batch (st : Store) (s : AppState) (items : List RefItem) :
    Store × AppState × ℕ × ℕ × ℕ :=
  match items.foldl (process_item s) (st, 0, 0) with
  | (st', registered_count, error_count) =>
    if registered_count > 0 ∨ error_count > 0 then
      match load_known_faces_from_db st' with
      | .ok (encs, names) => (st', ⟨encs, names⟩, registered_count, error_count, 1)
      | .error _ => (st', s, registered_count, error_count, 1)
    else (st', s, registered_count, error_count, 0)

theorem argmin_singleton {α : Type} [LinearOrder α] [DecidableEq α] (x : α) :
    argmin [x] = 0 := by
  simp [argmin, list_min]

theorem is_face_duplicate_singleton (e v : Emb) (name : String) (tol : ℝ)
    (h : face_dist v e ≤ tol) :
    is_face_duplicate e [v] [name] tol = (true, some name, some (face_dist v e)) := by
  obtain ⟨k, hk, _, hpos, _⟩ :=
    is_face_duplicate_spec e [v] [name] tol (by simp)
  have hk0 : k = 0 := by simpa using Nat.lt_one_iff.mp (by simpa using hk)
  subst hk0
  simpa using hpos (by simpa using h)

/-- C1 amended: if the Store cannot be reached during a refresh, the
operation fails with a 500 error, but snapshot retention differs by module:
the `app/main.py` refresh endpoint leaves the previously published snapshot
unchanged (the loader raises before the global assignment), while the
`api.py` loader clears the module-level lists before attempting the
connection, so after its failed refresh the published snapshot is empty, not
the previous one. -/
theorem C1_store_unavailable (st : Store) (s : AppState) (sa : Api.ApiState)
    (h : st.reachable = false) :
    refresh_db_faces_endpoint st s =
      (s, .error ⟨500, "Error interno al recargar rostros: " ++
        "Error al conectar a la base de datos"⟩) ∧
    Api.refresh_db_faces st sa =
      (⟨[], []⟩, .error ⟨500, "No se pudo conectar a la base de datos"⟩) := by
  constructor
  · rw [refresh_db_faces_endpoint, load_known_faces_from_db, if_neg (by simp [h])]
  · rw [Api.refresh_db_faces, Api.load_known_faces_from_db, if_neg (by simp [h])]

/-- Witness for C1 at a concrete input: an unreachable Store and a nonempty
previously published cache on both paths. -/
theorem C1_store_unavailable_witness :
    refresh_db_faces_endpoint ⟨[⟨1, "alicia", EmbVal.vec [1]⟩], false⟩ ⟨[[1]], ["alicia"]⟩ =
      (⟨[[1]], ["alicia"]⟩, .error ⟨500, "Error interno al recargar rostros: " ++
        "Error al conectar a la base de datos"⟩) ∧
    Api.refresh_db_faces ⟨[⟨1, "alicia", EmbVal.vec [1]⟩], false⟩ ⟨[[1]], ["alicia"]⟩ =
      (⟨[], []⟩, .error ⟨500, "No se pudo conectar a la base de datos"⟩) :=
  C1_store_unavailable ⟨[⟨1, "alicia", EmbVal.vec [1]⟩], false⟩ ⟨[[1]], ["alicia"]⟩
    ⟨[[1]], ["alicia"]⟩ rfl

/-- Counterexample to C1 as stated: with an unreachable Store and the
previously published api.py snapshot holding alicia, the refresh fails but
the published snapshot afterwards is NOT the snapshot before the failed load
— the loader cleared it to empty before attempting the connection. -/
theorem C1_counterexample :
    (Api.refresh_db_faces ⟨[⟨1, "alicia", EmbVal.vec [1]⟩], false⟩
        ⟨[[1]], ["alicia"]⟩).1 ≠ ⟨[[1]], ["alicia"]⟩ ∧
    (Api.refresh_db_faces ⟨[⟨1, "alicia", EmbVal.vec [1]⟩], false⟩
        ⟨[[1]], ["alicia"]⟩).2 =
      .error ⟨500, "No se pudo conectar a la base de datos"⟩ := by
  constructor
  · decide
  · rfl

/-- C2 (code bug), evaluated at the failing input: enrolling carol with
alicia's exact embedding (distance 0, within the 0.6 tolerance).  The
duplicate guard identifies alicia at distance 0 and the handler builds the
409 DuplicateFace error naming her, but the block's own bare except clause
catches that 409 and the caller instead receives the generic 500 "Error
interno al verificar duplicados" wrapper (with the 409's stringification
embedded in its detail); the Store and the cache are left unchanged. -/
theorem C2_code_bug_evaluation :
    is_face_duplicate [1] [[(1:ℚ)]] ["alicia"] FACE_RECOGNITION_TOLERANCE =
      (true, some "alicia", some 0) ∧
    register_face ⟨[⟨1, "alicia", EmbVal.vec [1]⟩], true⟩ ⟨[[1]], ["alicia"]⟩ "carol" [1] =
      (⟨[⟨1, "alicia", EmbVal.vec [1]⟩], true⟩, ⟨[[1]], ["alicia"]⟩,
        .error ⟨500, "Error interno al verificar duplicados: " ++
          http_exception_str ⟨409, "Este rostro ya está registrado como 'alicia'."⟩⟩) ∧
    (register_face ⟨[⟨1, "alicia", EmbVal.vec [1]⟩], true⟩
        ⟨[[1]], ["alicia"]⟩ "carol" [1]).2.2 ≠
      .error ⟨409, "Este rostro ya está registrado como 'alicia'."⟩ := by
  have hd0 : face_dist [1] [(1:ℚ)] = 0 := face_dist_self _
  have hdup : is_face_duplicate [1] [[(1:ℚ)]] ["alicia"] FACE_RECOGNITION_TOLERANCE =
      (true, some "alicia", some 0) := by
    have := is_face_duplicate_singleton [1] [(1:ℚ)] "alicia" FACE_RECOGNITION_TOLERANCE
      (by rw [hd0, FACE_RECOGNITION_TOLERANCE]; norm_num)
    rwa [hd0] at this
  have hreg : register_face ⟨[⟨1, "alicia", EmbVal.vec [1]⟩], true⟩
      ⟨[[1]], ["alicia"]⟩ "carol" [1] =
      (⟨[⟨1, "alicia", EmbVal.vec [1]⟩], true⟩, ⟨[[1]], ["alicia"]⟩,
        .error ⟨500, "Error interno al verificar duplicados: " ++
          http_exception_str ⟨409, "Este rostro ya está registrado como 'alicia'."⟩⟩) := by
    rw [register_face]
    simp [hdup, http_exception_str]
  refine ⟨hdup, hreg, ?_⟩
  rw [hreg]
  simp [http_exception_str]

/-- C6: with a reachable Store, deleting an identifier that matches nothing
fails with NotFound and changes nothing: a name with no matching row answers
404 with Store and cache unchanged, and a Store delete by an id matching no
row reports false with the rows unchanged; when the name does resolve to a
row, the Store delete succeeds and only then is the cache reloaded and
republished from the post-delete Store. -/
theorem C6_delete_not_found (st : Store) (s : AppState) (nombre : String)
    (hre : st.reachable = true) :
    (st.rows.find? (fun r => r.nombre = nombre) = none →
      delete_face_by_name st s nombre =
        (st, s, .error ⟨404, "Persona con nombre '" ++ nombre ++ "' no encontrada."⟩)) ∧
    (∀ person_id : ℕ, (∀ r ∈ st.rows, r.id ≠ person_id) →
      delete_face_from_db st person_id = .ok (st, false)) ∧
    (∀ r, st.rows.find? (fun q => q.nombre = nombre) = some r →
      ∃ st', delete_face_from_db st r.id = .ok (st', true) ∧
        ∃ encs names, load_known_faces_from_db st' = .ok (encs, names) ∧
          delete_face_by_name st s nombre = (st', ⟨encs, names⟩,
            .ok ("Persona '" ++ nombre ++ "' eliminada exitosamente de la DB."))) := by
  refine ⟨?_, ?_, ?_⟩
  · intro hfind
    rw [delete_face_by_name, if_pos hre, hfind]
  · intro person_id hnone
    rw [delete_face_from_db, if_pos hre]
    have hfil : st.rows.filter (fun r => r.id ≠ person_id) = st.rows := by
      rw [List.filter_eq_self]
      intro a ha
      simpa using hnone a ha
    rw [hfil]
    simp
  · intro r hfind
    have hmem : r ∈ st.rows := List.mem_of_find?_eq_some hfind
    have hlt : (st.rows.filter (fun q => q.id ≠ r.id)).length < st.rows.length := by
      apply List.length_filter_lt_length_iff_exists.mpr
      exact ⟨r, hmem, by simp⟩
    have hdel : delete_face_from_db st r.id =
        .ok (⟨st.rows.filter (fun q => q.id ≠ r.id), st.reachable⟩, true) := by
      rw [delete_face_from_db, if_pos hre]
      simp only [decide_eq_true hlt]
    refine ⟨⟨st.rows.filter (fun q => q.id ≠ r.id), st.reachable⟩, hdel, ?_⟩
    have hre' : (Store.mk (st.rows.filter (fun q => q.id ≠ r.id)) st.reachable).reachable = true := hre
    have hload : ∃ encs names, load_known_faces_from_db
        ⟨st.rows.filter (fun q => q.id ≠ r.id), st.reachable⟩ = .ok (encs, names) := by
      rw [load_known_faces_from_db, if_pos hre']
      exact ⟨_, _, rfl⟩
    obtain ⟨encs, names, hEN⟩ := hload
    refine ⟨encs, names, hEN, ?_⟩
    rw [delete_face_by_name, if_pos hre, hfind]
    simp only [hdel, hEN]

/-- Witness for C6 at a concrete input: the one-row Store with alicia;
benito is not found (404, nothing changes), id 2 matches no row (false), and
alicia's own name resolves, deletes and reloads. -/
theorem C6_delete_not_found_witness :
    (([⟨1, "alicia", EmbVal.vec [1]⟩] : List Row).find?
        (fun r => r.nombre = "benito") = none →
      delete_face_by_name ⟨[⟨1, "alicia", EmbVal.vec [1]⟩], true⟩ ⟨[[1]], ["alicia"]⟩ "benito" =
        (⟨[⟨1, "alicia", EmbVal.vec [1]⟩], true⟩, ⟨[[1]], ["alicia"]⟩,
          .error ⟨404, "Persona con nombre '" ++ "benito" ++ "' no encontrada."⟩)) ∧
    (∀ person_id : ℕ,
      (∀ r ∈ ([⟨1, "alicia", EmbVal.vec [1]⟩] : List Row), r.id ≠ person_id) →
      delete_face_from_db ⟨[⟨1, "alicia", EmbVal.vec [1]⟩], true⟩ person_id =
        .ok (⟨[⟨1, "alicia", EmbVal.vec [1]⟩], true⟩, false)) ∧
    (∀ r, ([⟨1, "alicia", EmbVal.vec [1]⟩] : List Row).find?
        (fun q => q.nombre = "benito") = some r →
      ∃ st', delete_face_from_db ⟨[⟨1, "alicia", EmbVal.vec [1]⟩], true⟩ r.id = .ok (st', true) ∧
        ∃ encs names, load_known_faces_from_db st' = .ok (encs, names) ∧
          delete_face_by_name ⟨[⟨1, "alicia", EmbVal.vec [1]⟩], true⟩
              ⟨[[1]], ["alicia"]⟩ "benito" = (st', ⟨encs, names⟩,
            .ok ("Persona '" ++ "benito" ++ "' eliminada exitosamente de la DB."))) :=
  C6_delete_not_found ⟨[⟨1, "alicia", EmbVal.vec [1]⟩], true⟩ ⟨[[1]], ["alicia"]⟩
    "benito" rfl

/-- C7: refresh is idempotent — with no intervening Store mutation a second
refresh produces exactly the same published snapshot and the same response
(hence the same count and the same name list) as the first. -/
theorem C7_refresh_idempotent (st : Store) (s : AppState) :
    refresh_db_faces_endpoint st (refresh_db_faces_endpoint st s).1 =
      refresh_db_faces_endpoint st s ∧
    (refresh_db_faces_endpoint st (refresh_db_faces_endpoint st s).1).1.known_face_names =
      (refresh_db_faces_endpoint st s).1.known_face_names := by
  have h : refresh_db_faces_endpoint st (refresh_db_faces_endpoint st s).1 =
      refresh_db_faces_endpoint st s := by
    rcases hl : load_known_faces_from_db st with e | p
    · rw [refresh_db_faces_endpoint, hl, refresh_db_faces_endpoint, hl]
    · obtain ⟨encs, names⟩ := p
      rw [refresh_db_faces_endpoint, hl, refresh_db_faces_endpoint, hl]
  exact ⟨h, by rw [h]⟩

theorem process_item_counts (s : AppState) (acc : Store × ℕ × ℕ) (it : RefItem) :
    (process_item s acc it).2.1 + (process_item s acc it).2.2 ≤ acc.2.1 + acc.2.2 + 1 := by
  rcases acc with ⟨st, reg, err⟩
  rcases it with ⟨n, o⟩
  cases o with
  | readError => simp [process_item] <;> omega
  | decodeError =>
    by_cases hm : n ∈ s.known_face_names <;> simp [process_item, hm] <;> omega
  | noFace =>
    by_cases hm : n ∈ s.known_face_names <;> simp [process_item, hm] <;> omega
  | ok e =>
    by_cases hm : n ∈ s.known_face_names
    · simp [process_item, hm]
    · by_cases hd : (is_face_duplicate e s.known_face_encodings s.known_face_names
          FACE_RECOGNITION_TOLERANCE).1
      · simp [process_item, hm, hd] <;> omega
      · rcases hs : save_face_to_db st n e with msg | p
        · simp [process_item, hm, hd, hs] <;> omega
        · rcases p with ⟨st', pid⟩
          simp [process_item, hm, hd, hs] <;> omega

theorem foldl_process_item_counts (s : AppState) (items : List RefItem) :
    ∀ acc : Store × ℕ × ℕ,
      (items.foldl (process_item s) acc).2.1 + (items.foldl (process_item s) acc).2.2 ≤
        acc.2.1 + acc.2.2 + items.length := by
  induction items with
  | nil => intro acc; simp
  | cons it rest ih =>
    intro acc
    have h1 := process_item_counts s acc it
    have h2 := ih (process_item s acc it)
    simp only [List.foldl_cons, List.length_cons]
    omega

/-- C9 amended: during the startup reconciliation batch a no-face item and a
duplicate item (for a name not already cached) are each skipped with the
error count incremented and no Store write, processing always completes with
registered/error counts bounded by the batch size, and after the whole batch
exactly one cache reload is performed when anything was registered or
errored — and none at all when every item was skipped as already known (or
the batch was empty). -/
theorem C9_batch_skip_and_single_reload (s : AppState) :
    (∀ (acc : Store × ℕ × ℕ) (it : RefItem), it.outcome = ItemOutcome.noFace →
        it.nombre ∉ s.known_face_names →
        process_item s acc it = (acc.1, acc.2.1, acc.2.2 + 1)) ∧
    (∀ (acc : Store × ℕ × ℕ) (it : RefItem) (e : Emb), it.outcome = ItemOutcome.ok e →
        it.nombre ∉ s.known_face_names →
        (is_face_duplicate e s.known_face_encodings s.known_face_names
            FACE_RECOGNITION_TOLERANCE).1 = true →
        process_item s acc it = (acc.1, acc.2.1, acc.2.2 + 1)) ∧
    (∀ (st : Store) (items : List RefItem),
        (startup_batch st s items).2.2.1 + (startup_batch st s items).2.2.2.1 ≤
          items.length) ∧
    (∀ (st : Store) (items : List RefItem),
        (startup_batch st s items).2.2.2.2 =
          if 0 < (startup_batch st s items).2.2.1 ∨ 0 < (startup_batch st s items).2.2.2.1
          then 1 else 0) := by
  have hbatch : ∀ (st : Store) (items : List RefItem),
      (startup_batch st s items).2.2.1 = (items.foldl (process_item s) (st, 0, 0)).2.1 ∧
      (startup_batch st s items).2.2.2.1 = (items.foldl (process_item s) (st, 0, 0)).2.2 ∧
      (startup_batch st s items).2.2.2.2 =
        (if 0 < (items.foldl (process_item s) (st, 0, 0)).2.1 ∨
            0 < (items.foldl (process_item s) (st, 0, 0)).2.2 then 1 else 0) := by
    intro st items
    rcases hf : items.foldl (process_item s) (st, 0, 0) with ⟨st', reg, err⟩
    rw [startup_batch, hf]
    by_cases hc : reg > 0 ∨ err > 0
    · rw [if_pos hc]
      rcases hl : load_known_faces_from_db st' with msg | p
      · simp [hl, hc]
      · rcases p with ⟨encs, names⟩; simp [hl, hc]
    · rw [if_neg hc]
      simp [hc]
  refine ⟨?_, ?_, ?_, ?_⟩
  · intro acc it hout hmem
    rcases acc with ⟨st, reg, err⟩
    rcases it with ⟨n, o⟩
    simp only [RefItem.nombre] at hmem
    cases hout
    simp [process_item, hmem]
  · intro acc it e hout hmem hd
    rcases acc with ⟨st, reg, err⟩
    rcases it with ⟨n, o⟩
    simp only [RefItem.nombre] at hmem
    cases hout
    simp [process_item, hmem, hd]
  · intro st items
    obtain ⟨h1, h2, _⟩ := hbatch st items
    rw [h1, h2]
    simpa using foldl_process_item_counts s items (st, 0, 0)
  · intro st items
    obtain ⟨h1, h2, h3⟩ := hbatch st items
    rw [h1, h2, h3]

/-- Counterexample to C9 as stated: a batch whose only item bears a name
already present in the cache is skipped silently, both counts stay zero and
the code performs no cache reload at all after the batch — not exactly one. -/
theorem C9_counterexample :
    (startup_batch ⟨[⟨1, "alicia", EmbVal.vec [1]⟩], true⟩ ⟨[[1]], ["alicia"]⟩
        [⟨"alicia", ItemOutcome.ok [1]⟩]).2.2.2.2 = 0 ∧
    (startup_batch ⟨[⟨1, "alicia", EmbVal.vec [1]⟩], true⟩ ⟨[[1]], ["alicia"]⟩
        [⟨"alicia", ItemOutcome.ok [1]⟩]).2.2.2.2 ≠ 1 := by
  have h : (startup_batch ⟨[⟨1, "alicia", EmbVal.vec [1]⟩], true⟩ ⟨[[1]], ["alicia"]⟩
      [⟨"alicia", ItemOutcome.ok [1]⟩]).2.2.2.2 = 0 := by
    rw [startup_batch]
    have hone : ([⟨"alicia", ItemOutcome.ok [1]⟩] : List RefItem).foldl
        (process_item ⟨[[1]], ["alicia"]⟩) (⟨[⟨1, "alicia", EmbVal.vec [1]⟩], true⟩, 0, 0) =
        (⟨[⟨1, "alicia", EmbVal.vec [1]⟩], true⟩, 0, 0) := by
      simp [process_item]
    rw [hone]
    simp
  exact ⟨h, by rw [h]; simp⟩

theorem get_map_fst {α β : Type} (l : List (α × β)) (i : ℕ)
    (h1 : i < (l.map Prod.fst).length) (h2 : i < l.length) :
    (l.map Prod.fst).get ⟨i, h1⟩ = (l.get ⟨i, h2⟩).1 := by
  simp [List.get_eq_getElem, List.getElem_map]

theorem get_map_snd {α β : Type} (l : List (α × β)) (i : ℕ)
    (h1 : i < (l.map Prod.snd).length) (h2 : i < l.length) :
    (l.map Prod.snd).get ⟨i, h1⟩ = (l.get ⟨i, h2⟩).2 := by
  simp [List.get_eq_getElem, List.getElem_map]

/-- C10: the cache invariant — the two lists the loader builds always have
equal length and pair, at each index, a name and an embedding taken from one
Store row whose embedding column is a non-null list value (null or malformed
rows are never admitted); and every operation that replaces the published
cache (register reload, delete reload, refresh, startup-batch reload) either
leaves the cache unchanged or publishes exactly a pair built by that loader,
so the invariant is preserved by every operation. -/
theorem C10_cache_invariant :
    (∀ (st : Store) (encs : List Emb) (names : List String),
      load_known_faces_from_db st = .ok (encs, names) →
      encs.length = names.length ∧
      ∀ (i : ℕ) (hi : i < encs.length) (hn : i < names.length),
        ∃ r ∈ st.rows, r.nombre = names.get ⟨i, hn⟩ ∧
          r.embedding = EmbVal.vec (encs.get ⟨i, hi⟩)) ∧
    (∀ (st : Store) (s : AppState) (nombre : String) (e : Emb),
      (register_face st s nombre e).2.1 = s ∨
      ∃ st₁ encs names, load_known_faces_from_db st₁ = .ok (encs, names) ∧
        (register_face st s nombre e).2.1 = ⟨encs, names⟩) ∧
    (∀ (st : Store) (s : AppState) (nombre : String),
      (delete_face_by_name st s nombre).2.1 = s ∨
      ∃ st₁ encs names, load_known_faces_from_db st₁ = .ok (encs, names) ∧
        (delete_face_by_name st s nombre).2.1 = ⟨encs, names⟩) ∧
    (∀ (st : Store) (s : AppState),
      (refresh_db_faces_endpoint st s).1 = s ∨
      ∃ st₁ encs names, load_known_faces_from_db st₁ = .ok (encs, names) ∧
        (refresh_db_faces_endpoint st s).1 = ⟨encs, names⟩) ∧
    (∀ (st : Store) (s : AppState) (items : List RefItem),
      (startup_batch st s items).2.1 = s ∨
      ∃ st₁ encs names, load_known_faces_from_db st₁ = .ok (encs, names) ∧
        (startup_batch st s items).2.1 = ⟨encs, names⟩) := by
  refine ⟨?_, ?_, ?_, ?_, ?_⟩
  · intro st encs names hload
    rw [load_known_faces_from_db] at hload
    by_cases hre : st.reachable = true
    · rw [if_pos hre] at hload
      simp only [Except.ok.injEq, Prod.mk.injEq] at hload
      obtain ⟨he, hn⟩ := hload
      subst he
      subst hn
      constructor
      · simp
      · intro i hi hn
        have hi' : i < ((st.rows.filter (fun r => r.embedding ≠ EmbVal.null)).filterMap
            (fun r => match r.embedding with
              | EmbVal.vec v => some (v, r.nombre)
              | _ => none)).length := by simpa using hi
        have hmem := List.get_mem _ i hi'
        obtain ⟨r, hr_mem, hfr⟩ := List.mem_filterMap.mp hmem
        have hr_rows : r ∈ st.rows := (List.mem_filter.mp hr_mem).1
        refine ⟨r, hr_rows, ?_, ?_⟩
        · rcases hremb : r.embedding with _ | v | _ <;> rw [hremb] at hfr <;>
            simp only [] at hfr
          · exact absurd hfr (by simp)
          · simp only [Option.some.injEq] at hfr
            rw [get_map_snd _ i hn hi', ← hfr]
          · exact absurd hfr (by simp)
        · rcases hremb : r.embedding with _ | v | _ <;> rw [hremb] at hfr <;>
            simp only [] at hfr
          · exact absurd hfr (by simp)
          · simp only [Option.some.injEq] at hfr
            rw [get_map_fst _ i hi hi', ← hfr]
          · exact absurd hfr (by simp)
    · rw [if_neg hre] at hload
      exact absurd hload (by simp)
  · intro st s nombre e
    rw [register_face]
    by_cases hd : (is_face_duplicate e s.known_face_encodings s.known_face_names
        FACE_RECOGNITION_TOLERANCE).1 = true
    · left; simp [hd]
    · rcases hs : save_face_to_db st nombre e with msg | p
      · left; simp [hd, hs]
      · rcases p with ⟨st', pid⟩
        rcases hl : load_known_faces_from_db st' with msg | p
        · left; simp [hd, hs, hl]
        · rcases p with ⟨encs, names⟩
          right; exact ⟨st', encs, names, hl, by simp [hd, hs, hl]⟩
  · intro st s nombre
    rw [delete_face_by_name]
    by_cases hre : st.reachable = true
    · rw [if_pos hre]
      rcases hf : st.rows.find? (fun r => r.nombre = nombre) with _ | r
      · left; simp [hf]
      · rcases hd : delete_face_from_db st r.id with msg | p
        · left; simp [hf, hd]
        · rcases p with ⟨st', b⟩
          cases b
          · left; simp [hf, hd]
          · rcases hl : load_known_faces_from_db st' with msg | p
            · left; simp [hf, hd, hl]
            · rcases p with ⟨encs, names⟩
              right; exact ⟨st', encs, names, hl, by simp [hf, hd, hl]⟩
    · rw [if_neg hre]; left; rfl
  · intro st s
    rcases hl : load_known_faces_from_db st with msg | p
    · left; rw [refresh_db_faces_endpoint, hl]
    · rcases p with ⟨encs, names⟩
      right; exact ⟨st, encs, names, hl, by rw [refresh_db_faces_endpoint, hl]⟩
  · intro st s items
    rcases hf : items.foldl (process_item s) (st, 0, 0) with ⟨st', reg, err⟩
    rw [startup_batch, hf]
    by_cases hc : reg > 0 ∨ err > 0
    · rcases hl : load_known_faces_from_db st' with msg | p
      · left; simp [hc, hl]
      · rcases p with ⟨encs, names⟩
        right; exact ⟨st', encs, names, hl, by simp [hc, hl]⟩
    · left; simp [hc]

end FaceAPI
